import Mathlib

/-!
Shallow embedding of the serial data logger (`src/main.go`).

The program reads chunks from a serial port, timestamps each chunk with
millisecond precision and appends a two-field row to a CSV record; a key
watcher goroutine recognizes Ctrl+X (0x18, discard: close file, remove it,
exit 0) and ESC followed by `c`/`C` (commit: flush writer, close file,
exit 0); any fatal transport or storage error goes through `log.Fatalf`,
which exits with code 1 and does NOT run deferred functions.

Go strings are modelled as lists of bytes (`List Nat`), since `string(buf[:n])`
converts raw bytes verbatim.  Wall-clock sampling (`time.Now()`) is modelled
as a sequence `clock : Nat → DateTime`, one sample per acquisition iteration.
-/

namespace SerialLogger

/-- A wall-clock instant as Go's `time.Time` presents it to the layout
`2006-01-02 15:04:05.000`: calendar fields plus milliseconds. -/
structure DateTime where
  year : Nat
  month : Nat
  day : Nat
  hour : Nat
  minute : Nat
  second : Nat
  millis : Nat
  deriving DecidableEq, Repr

/-- Linear key of a timestamp; radices are wide enough for every valid
calendar field, so on valid timestamps the key order is the time order. -/
def DateTime.key (t : DateTime) : Nat :=
  ((((t.year * 16 + t.month) * 32 + t.day) * 32 + t.hour) * 64 + t.minute) * 64000 +
    t.second * 1000 + t.millis

/-- Order on timestamps, via the linear key. -/
def DateTime.le (a b : DateTime) : Prop := a.key ≤ b.key

instance (a b : DateTime) : Decidable (DateTime.le a b) := by
  unfold DateTime.le
  infer_instance

/-- Fuel-bounded worker producing the decimal digits of `n` as ASCII byte
codes, most significant first; the fuel only serves structural recursion
and is always ample at the call site below. -/
def natToDigitsAux : Nat → Nat → List Nat
  | 0, _ => []
  | fuel + 1, n =>
    if n < 10 then [48 + n]
    else natToDigitsAux fuel (n / 10) ++ [48 + n % 10]

/-- Decimal digits of `n` as ASCII byte codes, most significant first
(the digit run Go's `appendInt` produces before padding). -/
def natToDigits (n : Nat) : List Nat := natToDigitsAux (n + 1) n

/-- Zero-pad a digit run on the left to width `w`, as Go's fixed-width
layout verbs (`2006`, `01`, ..., `.000`) do; a run longer than `w` is
kept whole. -/
def zeroPad (w : Nat) (ds : List Nat) : List Nat :=
  List.replicate (w - ds.length) 48 ++ ds

/-- Render `n` zero-padded to width `w` as ASCII bytes. -/
def padNum (w n : Nat) : List Nat := zeroPad w (natToDigits n)

/-- The bytes `time.Now().Format("2006-01-02 15:04:05.000")` produces:
4-digit year, dash, 2-digit month, dash, 2-digit day, space, 2-digit hour,
colon, 2-digit minute, colon, 2-digit second, dot, 3-digit milliseconds. -/
def formatTimestamp (t : DateTime) : List Nat :=
  padNum 4 t.year ++ [45] ++ padNum 2 t.month ++ [45] ++ padNum 2 t.day ++ [32] ++
    padNum 2 t.hour ++ [58] ++ padNum 2 t.minute ++ [58] ++ padNum 2 t.second ++
    [46] ++ padNum 3 t.millis

/-- One logical CSV row: the timestamp paired with the raw payload chunk,
exactly the two values passed to `writer.Write([]string{currentTime, data})`. -/
structure Entry where
  stamp : DateTime
  payload : List Nat
  deriving DecidableEq, Repr

/-- The physical field list handed to the CSV writer for one entry:
`[]string{currentTime, data}`. -/
def entryRow (e : Entry) : List (List Nat) :=
  [formatTimestamp e.stamp, e.payload]

/-- Observable state of the record file, its writer and the close ledger.
`buffered` holds rows written to the `csv.Writer` but not yet flushed;
`durable` holds rows flushed through to the file; `closeCount` counts
invocations of `file.Close()`. -/
structure SessionState where
  fileOpen : Bool
  fileOnDisk : Bool
  buffered : List Entry
  durable : List Entry
  closeCount : Nat
  deriving DecidableEq, Repr

/-- State right after `createCSVFile` succeeds: an open, empty record. -/
def initState : SessionState :=
  { fileOpen := true, fileOnDisk := true, buffered := [], durable := [], closeCount := 0 }

/-- State on the startup-failure paths, where no record file was created. -/
def noRecordState : SessionState :=
  { fileOpen := false, fileOnDisk := false, buffered := [], durable := [], closeCount := 0 }

/-- Model of `writer.Write(...)`: the row goes into the writer's buffer. -/
def writeEntry (s : SessionState) (e : Entry) : SessionState :=
  { s with buffered := s.buffered ++ [e] }

/-- Model of `writer.Flush()`: buffered rows become durable, in order. -/
def flushWriter (s : SessionState) : SessionState :=
  { s with durable := s.durable ++ s.buffered, buffered := [] }

/-- Model of `file.Close()`: the handle closes and the close ledger ticks. -/
def closeFile (s : SessionState) : SessionState :=
  { s with fileOpen := false, closeCount := s.closeCount + 1 }

/-- Model of `os.Remove(file.Name())`: the artifact leaves the medium. -/
def removeFile (s : SessionState) : SessionState :=
  { s with fileOnDisk := false }

/-- The Ctrl+X branch of `checkKeys`: `file.Close()`, `os.Remove(...)`,
`os.Exit(0)` (deferred closes are skipped by `os.Exit`). -/
def discardExit (s : SessionState) : SessionState × Nat :=
  (removeFile (closeFile s), 0)

/-- The Alt+C branch of `checkKeys`: `writer.Flush()`, `file.Close()`,
`os.Exit(0)` (deferred closes are skipped by `os.Exit`). -/
def commitExit (s : SessionState) : SessionState × Nat :=
  (closeFile (flushWriter s), 0)

/-- Outcome of running `checkKeys` over a finite stream of raw input bytes. -/
inductive KeyOutcome where
  /-- The Alt+C branch fired: commit and exit. -/
  | commit : KeyOutcome
  /-- The Ctrl+X branch fired: discard and exit. -/
  | discard : KeyOutcome
  /-- The stream ran out at the top of the loop; the watcher blocks in
  `readChar()` having recognized nothing. -/
  | exhausted : KeyOutcome
  /-- The stream ran out right after an escape byte; the watcher blocks in
  the inner `readChar()` waiting for the second byte. -/
  | blockedEscape : KeyOutcome
  deriving DecidableEq, Repr

/-- The `checkKeys` loop over a finite stream of raw input bytes: 0x18
discards at once; 0x1b consumes one more byte and commits exactly on
`c` (99) or `C` (67), silently dropping any other second byte; every
other byte is ignored. -/
def checkKeys : List Nat → KeyOutcome
  | [] => .exhausted
  | k :: rest =>
    if k = 24 then .discard
    else if k = 27 then
      match rest with
      | [] => .blockedEscape
      | nextKey :: rest' =>
        if nextKey = 99 ∨ nextKey = 67 then .commit
        else checkKeys rest'
    else checkKeys rest

/-- One iteration's worth of environment behaviour for the acquisition
loop: a successful read of a chunk, a read error, or a successful read
whose append to the CSV writer fails. -/
inductive LoopInput where
  /-- `s.Read` succeeds with these payload bytes and `writer.Write` succeeds. -/
  | ok (chunk : List Nat) : LoopInput
  /-- `s.Read` returns an error. -/
  | readErr : LoopInput
  /-- `s.Read` succeeds but `writer.Write` returns an error. -/
  | writeErr (chunk : List Nat) : LoopInput
  deriving DecidableEq, Repr

/-- Whether an environment step makes the acquisition loop hit `log.Fatalf`. -/
def LoopInput.isFatal : LoopInput → Bool
  | .ok _ => false
  | .readErr => true
  | .writeErr _ => true

/-- How the acquisition loop left off over a finite environment. -/
inductive LoopExit where
  /-- `log.Fatalf` fired: the process exits with code 1 and no deferred
  function (in particular no `file.Close()`) runs. -/
  | fatal (s : SessionState) : LoopExit
  /-- The environment ran out: the loop is still alive, blocked in `s.Read`. -/
  | pending (s : SessionState) : LoopExit
  deriving DecidableEq, Repr

/-- The record-file state at the loop's exit point. -/
def LoopExit.state : LoopExit → SessionState
  | .fatal s => s
  | .pending s => s

/-- Whether the loop exit was the `log.Fatalf` path. -/
def LoopExit.isFatal : LoopExit → Bool
  | .fatal _ => true
  | .pending _ => false

/-- The `for` loop of `main`, iteration `i` onwards: read a chunk, stamp it
with `clock i`, `writer.Write` the two-field row, `writer.Flush()`; a read
or write error is `log.Fatalf`, ending the process at once with no retry. -/
def acquisitionLoop (clock : Nat → DateTime) : Nat → List LoopInput → SessionState → LoopExit
  | _, [], s => .pending s
  | i, .ok chunk :: rest, s =>
      acquisitionLoop clock (i + 1) rest (flushWriter (writeEntry s ⟨clock i, chunk⟩))
  | _, .readErr :: _, s => .fatal s
  | _, .writeErr _ :: _, s => .fatal s

/-- One whole session after a successful startup: the acquisition loop
consumes its environment; if it hits `log.Fatalf` that is the first and
only terminal event (exit code 1, no close); otherwise the key watcher's
outcome decides commit (exit 0) or discard (exit 0).  `none` means the
process never terminated (both goroutines blocked). -/
def runSession (clock : Nat → DateTime) (inputs : List LoopInput) (keys : List Nat) :
    Option (SessionState × Nat) :=
  match acquisitionLoop clock 0 inputs initState with
  | .fatal s => some (s, 1)
  | .pending s =>
    match checkKeys keys with
    | .commit => some (commitExit s)
    | .discard => some (discardExit s)
    | .exhausted => none
    | .blockedEscape => none

/-- How startup went: `serial.OpenPort` failure, `createCSVFile` failure,
or both succeeded. -/
inductive Startup where
  /-- `serial.OpenPort` failed: `log.Fatalf`, exit 1, no record exists. -/
  | portErr : Startup
  /-- `os.Create` failed: `log.Fatalf`, exit 1, no record exists. -/
  | fileErr : Startup
  /-- Port open and record creation both succeeded. -/
  | ok : Startup
  deriving DecidableEq, Repr

/-- The whole process: startup failures are fatal (`log.Fatalf`, exit 1)
before any record exists; otherwise the session runs. -/
def runProgram (clock : Nat → DateTime) (start : Startup) (inputs : List LoopInput)
    (keys : List Nat) : Option (SessionState × Nat) :=
  match start with
  | .portErr => some (noRecordState, 1)
  | .fileErr => some (noRecordState, 1)
  | .ok => runSession clock inputs keys

/-- The entries the loop appends for chunks `cs` when stamping starts at
iteration `i`: chunk `j` (0-based) carries timestamp `clock (i + j)`. -/
def entriesFrom (clock : Nat → DateTime) : Nat → List (List Nat) → List Entry
  | _, [] => []
  | i, c :: cs => ⟨clock i, c⟩ :: entriesFrom clock (i + 1) cs

/-- An ASCII decimal digit byte. -/
def isDigit (b : Nat) : Bool := 48 ≤ b && b ≤ 57

/-- Check a byte list against a list of per-position byte predicates,
requiring equal lengths. -/
def matchesShape : List (Nat → Bool) → List Nat → Bool
  | [], [] => true
  | p :: ps, b :: bs => p b && matchesShape ps bs
  | _, _ => false

/-- The per-position shape of the text `YYYY-MM-DD HH:MM:SS.mmm`: digits
at the digit positions, the dashes, space, colons and dot at theirs. -/
def tsShape : List (Nat → Bool) :=
  List.replicate 4 isDigit ++ [fun b => b == 45] ++ List.replicate 2 isDigit ++
    [fun b => b == 45] ++ List.replicate 2 isDigit ++ [fun b => b == 32] ++
    List.replicate 2 isDigit ++ [fun b => b == 58] ++ List.replicate 2 isDigit ++
    [fun b => b == 58] ++ List.replicate 2 isDigit ++ [fun b => b == 46] ++
    List.replicate 3 isDigit

/-- Whether a byte list reads `YYYY-MM-DD HH:MM:SS.mmm`. -/
def isTimestampFormat (s : List Nat) : Bool := matchesShape tsShape s

/-- Calendar-valid timestamp fields, the ranges Go's `time.Time` guarantees
(years of the common era up to 9999). -/
def validDateTime (t : DateTime) : Prop :=
  t.year ≤ 9999 ∧ 1 ≤ t.month ∧ t.month ≤ 12 ∧ 1 ≤ t.day ∧ t.day ≤ 31 ∧
    t.hour ≤ 23 ∧ t.minute ≤ 59 ∧ t.second ≤ 59 ∧ t.millis ≤ 999

instance (t : DateTime) : Decidable (validDateTime t) := by
  unfold validDateTime
  infer_instance

lemma natToDigitsAux_digits : ∀ fuel n, ∀ d ∈ natToDigitsAux fuel n, isDigit d = true := by
  intro fuel
  induction fuel with
  | zero =>
    intro n d hd
    simp [natToDigitsAux] at hd
  | succ fuel ih =>
    intro n d hd
    rw [natToDigitsAux] at hd
    by_cases hn : n < 10
    · rw [if_pos hn] at hd
      simp only [List.mem_singleton] at hd
      subst hd
      simp only [isDigit, Bool.and_eq_true, decide_eq_true_eq]
      omega
    · rw [if_neg hn] at hd
      rcases List.mem_append.mp hd with h | h
      · exact ih (n / 10) d h
      · simp only [List.mem_singleton] at h
        subst h
        have hm : n % 10 < 10 := Nat.mod_lt _ (by omega)
        simp only [isDigit, Bool.and_eq_true, decide_eq_true_eq]
        omega

lemma natToDigits_digits (n : Nat) : ∀ d ∈ natToDigits n, isDigit d = true :=
  natToDigitsAux_digits (n + 1) n

lemma natToDigitsAux_length_le :
    ∀ fuel k n, 1 ≤ k → n < 10 ^ k → (natToDigitsAux fuel n).length ≤ k := by
  intro fuel
  induction fuel with
  | zero =>
    intro k n hk _
    simp [natToDigitsAux]
  | succ fuel ih =>
    intro k n hk hn
    rw [natToDigitsAux]
    by_cases h10 : n < 10
    · rw [if_pos h10]
      simpa using hk
    · rw [if_neg h10]
      obtain ⟨k', rfl⟩ : ∃ k', k = k' + 1 := ⟨k - 1, by omega⟩
      have hk' : 1 ≤ k' := by
        by_contra hc
        have hk0 : k' = 0 := by omega
        subst hk0
        norm_num at hn
        omega
      have hdiv : n / 10 < 10 ^ k' := by
        apply Nat.div_lt_of_lt_mul
        rw [Nat.pow_succ] at hn
        omega
      have := ih k' (n / 10) hk' hdiv
      simp only [List.length_append, List.length_singleton]
      omega

lemma natToDigits_length_le (k : Nat) :
    ∀ n, 1 ≤ k → n < 10 ^ k → (natToDigits n).length ≤ k :=
  fun n hk hn => natToDigitsAux_length_le (n + 1) k n hk hn

lemma matchesShape_append {ps qs : List (Nat → Bool)} {xs ys : List Nat}
    (hp : matchesShape ps xs = true) (hq : matchesShape qs ys = true) :
    matchesShape (ps ++ qs) (xs ++ ys) = true := by
  induction ps generalizing xs with
  | nil =>
    cases xs with
    | nil => simpa using hq
    | cons x xs => simp [matchesShape] at hp
  | cons p ps ih =>
    cases xs with
    | nil => simp [matchesShape] at hp
    | cons x xs =>
      simp only [matchesShape, Bool.and_eq_true] at hp
      simp only [List.cons_append, matchesShape, Bool.and_eq_true]
      exact ⟨hp.1, ih hp.2⟩

lemma matchesShape_digitRun {xs : List Nat} (hd : ∀ x ∈ xs, isDigit x = true) :
    matchesShape (List.replicate xs.length isDigit) xs = true := by
  induction xs with
  | nil => simp [matchesShape]
  | cons x xs ih =>
    simp only [List.length_cons, List.replicate_succ, matchesShape, Bool.and_eq_true]
    refine ⟨hd x (by simp), ih fun y hy => hd y (by simp [hy])⟩

lemma padNum_length {w n : Nat} (h1 : 1 ≤ w) (h : n < 10 ^ w) :
    (padNum w n).length = w := by
  have := natToDigits_length_le w n h1 h
  simp only [padNum, zeroPad, List.length_append, List.length_replicate]
  omega

lemma padNum_digits {w n : Nat} : ∀ x ∈ padNum w n, isDigit x = true := by
  intro x hx
  simp only [padNum, zeroPad] at hx
  rcases List.mem_append.mp hx with h | h
  · have := List.eq_of_mem_replicate h
    subst this
    rfl
  · exact natToDigits_digits n x h

lemma matchesShape_padNum {w n : Nat} (h1 : 1 ≤ w) (h : n < 10 ^ w) :
    matchesShape (List.replicate w isDigit) (padNum w n) = true := by
  have hlen := padNum_length h1 h
  have hrun := matchesShape_digitRun (@padNum_digits w n)
  rwa [hlen] at hrun

/-- The rendered timestamp of any calendar-valid instant has the shape
`YYYY-MM-DD HH:MM:SS.mmm`. -/
lemma isTimestampFormat_format {t : DateTime} (h : validDateTime t) :
    isTimestampFormat (formatTimestamp t) = true := by
  obtain ⟨h1, h2, h3, h4, h5, h6, h7, h8, h9⟩ := h
  have hy : matchesShape (List.replicate 4 isDigit) (padNum 4 t.year) = true :=
    matchesShape_padNum (by norm_num) (by norm_num; omega)
  have hmo : matchesShape (List.replicate 2 isDigit) (padNum 2 t.month) = true :=
    matchesShape_padNum (by norm_num) (by norm_num; omega)
  have hda : matchesShape (List.replicate 2 isDigit) (padNum 2 t.day) = true :=
    matchesShape_padNum (by norm_num) (by norm_num; omega)
  have hho : matchesShape (List.replicate 2 isDigit) (padNum 2 t.hour) = true :=
    matchesShape_padNum (by norm_num) (by norm_num; omega)
  have hmi : matchesShape (List.replicate 2 isDigit) (padNum 2 t.minute) = true :=
    matchesShape_padNum (by norm_num) (by norm_num; omega)
  have hse : matchesShape (List.replicate 2 isDigit) (padNum 2 t.second) = true :=
    matchesShape_padNum (by norm_num) (by norm_num; omega)
  have hms : matchesShape (List.replicate 3 isDigit) (padNum 3 t.millis) = true :=
    matchesShape_padNum (by norm_num) (by norm_num; omega)
  have hdash1 : matchesShape [fun b => b == 45] [45] = true := by decide
  have hdash2 : matchesShape [fun b => b == 45] [45] = true := by decide
  have hsp : matchesShape [fun b => b == 32] [32] = true := by decide
  have hco1 : matchesShape [fun b => b == 58] [58] = true := by decide
  have hco2 : matchesShape [fun b => b == 58] [58] = true := by decide
  have hdot : matchesShape [fun b => b == 46] [46] = true := by decide
  unfold isTimestampFormat tsShape formatTimestamp
  exact matchesShape_append (matchesShape_append (matchesShape_append (matchesShape_append
    (matchesShape_append (matchesShape_append (matchesShape_append (matchesShape_append
      (matchesShape_append (matchesShape_append (matchesShape_append
        (matchesShape_append hy hdash1) hmo) hdash2) hda) hsp) hho) hco1) hmi) hco2)
          hse) hdot) hms

lemma writeEntry_flush (s : SessionState) (e : Entry) (hb : s.buffered = []) :
    flushWriter (writeEntry s e) =
      { s with durable := s.durable ++ [e], buffered := [] } := by
  simp [flushWriter, writeEntry, hb]

lemma acquisitionLoop_ok (clock : Nat → DateTime) (chunks : List (List Nat)) :
    ∀ i s, s.buffered = [] →
      acquisitionLoop clock i (chunks.map LoopInput.ok) s =
        .pending { s with durable := s.durable ++ entriesFrom clock i chunks,
                          buffered := [] } := by
  induction chunks with
  | nil =>
    intro i s hb
    obtain ⟨fo, fd, buf, dur, cc⟩ := s
    dsimp only at hb
    subst hb
    simp [acquisitionLoop, entriesFrom]
  | cons c cs ih =>
    intro i s hb
    simp only [List.map_cons, acquisitionLoop]
    rw [writeEntry_flush s _ hb, ih]
    · simp [entriesFrom]
    · rfl

lemma acquisitionLoop_fatal (clock : Nat → DateTime) (chunks : List (List Nat))
    (bad : LoopInput) (hbad : bad.isFatal = true) (post : List LoopInput) :
    ∀ i s, s.buffered = [] →
      acquisitionLoop clock i (chunks.map LoopInput.ok ++ bad :: post) s =
        .fatal { s with durable := s.durable ++ entriesFrom clock i chunks,
                        buffered := [] } := by
  induction chunks with
  | nil =>
    intro i s hb
    obtain ⟨fo, fd, buf, dur, cc⟩ := s
    dsimp only at hb
    subst hb
    cases bad with
    | ok chunk => simp [LoopInput.isFatal] at hbad
    | readErr => simp [acquisitionLoop, entriesFrom]
    | writeErr chunk => simp [acquisitionLoop, entriesFrom]
  | cons c cs ih =>
    intro i s hb
    simp only [List.map_cons, List.cons_append, acquisitionLoop, List.append_eq]
    rw [writeEntry_flush s _ hb, ih]
    · simp [entriesFrom]
    · rfl

lemma entriesFrom_payload (clock : Nat → DateTime) (chunks : List (List Nat)) :
    ∀ i, (entriesFrom clock i chunks).map Entry.payload = chunks := by
  induction chunks with
  | nil => intro i; rfl
  | cons c cs ih => intro i; simp [entriesFrom, ih]

lemma entriesFrom_stamp (clock : Nat → DateTime) (chunks : List (List Nat)) :
    ∀ i, (entriesFrom clock i chunks).map Entry.stamp =
      (List.range chunks.length).map fun j => clock (i + j) := by
  induction chunks with
  | nil => intro i; rfl
  | cons c cs ih =>
    intro i
    simp only [entriesFrom, List.map_cons, List.length_cons, List.range_succ_eq_map,
      List.map_map, ih, Nat.add_zero, List.cons.injEq, true_and]
    apply List.map_congr_left
    intro j hj
    simp only [Function.comp_apply]
    congr 1
    omega

lemma entriesFrom_length (clock : Nat → DateTime) (chunks : List (List Nat)) :
    ∀ i, (entriesFrom clock i chunks).length = chunks.length := by
  induction chunks with
  | nil => intro i; rfl
  | cons c cs ih => intro i; simp [entriesFrom, ih]

lemma acquisitionLoop_preserves (clock : Nat → DateTime) (inputs : List LoopInput) :
    ∀ i s,
      ((acquisitionLoop clock i inputs s).state).closeCount = s.closeCount ∧
        ((acquisitionLoop clock i inputs s).state).fileOpen = s.fileOpen ∧
        ((acquisitionLoop clock i inputs s).state).fileOnDisk = s.fileOnDisk := by
  induction inputs with
  | nil => intro i s; exact ⟨rfl, rfl, rfl⟩
  | cons x rest ih =>
    intro i s
    cases x with
    | ok chunk => exact ih (i + 1) (flushWriter (writeEntry s ⟨clock i, chunk⟩))
    | readErr => exact ⟨rfl, rfl, rfl⟩
    | writeErr chunk => exact ⟨rfl, rfl, rfl⟩

lemma acquisitionLoop_buffered (clock : Nat → DateTime) (inputs : List LoopInput) :
    ∀ i s, s.buffered = [] → ((acquisitionLoop clock i inputs s).state).buffered = [] := by
  induction inputs with
  | nil => intro i s hb; exact hb
  | cons x rest ih =>
    intro i s hb
    cases x with
    | ok chunk => exact ih (i + 1) (flushWriter (writeEntry s ⟨clock i, chunk⟩)) rfl
    | readErr => exact hb
    | writeErr chunk => exact hb

lemma chain_le_clock_range (clock : Nat → DateTime) (n : Nat)
    (hmono : ∀ i j, i ≤ j → DateTime.le (clock i) (clock j)) :
    List.Chain' DateTime.le ((List.range n).map clock) := by
  apply List.Pairwise.chain'
  rw [List.pairwise_map]
  exact (List.pairwise_le_range n).imp fun hab => hmono _ _ hab

lemma flushWriter_noop (u : SessionState) (hu : u.buffered = []) : flushWriter u = u := by
  obtain ⟨a, b, buf, d, e⟩ := u
  dsimp only at hu
  subst hu
  simp [flushWriter]

lemma entriesFrom_stamp_mem (clock : Nat → DateTime) (chunks : List (List Nat)) :
    ∀ i e, e ∈ entriesFrom clock i chunks → ∃ j, e.stamp = clock j := by
  induction chunks with
  | nil =>
    intro i e he
    simp [entriesFrom] at he
  | cons c cs ih =>
    intro i e he
    rcases List.mem_cons.mp he with rfl | hmem
    · exact ⟨i, rfl⟩
    · exact ih (i + 1) e hmem

lemma runSession_commit (clock : Nat → DateTime) (chunks : List (List Nat)) (keys : List Nat)
    (hk : checkKeys keys = KeyOutcome.commit) :
    runSession clock (chunks.map LoopInput.ok) keys =
      some ({ fileOpen := false, fileOnDisk := true, buffered := [],
              durable := entriesFrom clock 0 chunks, closeCount := 1 }, 0) := by
  unfold runSession
  rw [acquisitionLoop_ok clock chunks 0 initState rfl, hk]
  simp [commitExit, closeFile, flushWriter, initState]

lemma runSession_discard (clock : Nat → DateTime) (chunks : List (List Nat)) (keys : List Nat)
    (hk : checkKeys keys = KeyOutcome.discard) :
    runSession clock (chunks.map LoopInput.ok) keys =
      some ({ fileOpen := false, fileOnDisk := false, buffered := [],
              durable := entriesFrom clock 0 chunks, closeCount := 1 }, 0) := by
  unfold runSession
  rw [acquisitionLoop_ok clock chunks 0 initState rfl, hk]
  simp [discardExit, closeFile, removeFile, initState]

lemma runSession_fatal (clock : Nat → DateTime) (chunks : List (List Nat)) (bad : LoopInput)
    (hbad : bad.isFatal = true) (post : List LoopInput) (keys : List Nat) :
    runSession clock (chunks.map LoopInput.ok ++ bad :: post) keys =
      some ({ fileOpen := true, fileOnDisk := true, buffered := [],
              durable := entriesFrom clock 0 chunks, closeCount := 0 }, 1) := by
  unfold runSession
  rw [acquisitionLoop_fatal clock chunks bad hbad post 0 initState rfl]
  simp [initState]

example : checkKeys [24] = KeyOutcome.discard := by decide
example : checkKeys [27, 99] = KeyOutcome.commit := by decide
example : checkKeys [27, 67] = KeyOutcome.commit := by decide
example : checkKeys [27, 120] = KeyOutcome.exhausted := by decide
example : checkKeys [27, 24] = KeyOutcome.exhausted := by decide
example : checkKeys [27] = KeyOutcome.blockedEscape := by decide
example : checkKeys [65, 24] = KeyOutcome.discard := by decide
example :
    runSession (fun _ => ⟨2024, 9, 8, 12, 0, 0, 0⟩) [LoopInput.ok [65], LoopInput.readErr] [] =
      some (⟨true, true, [], [⟨⟨2024, 9, 8, 12, 0, 0, 0⟩, [65]⟩], 0⟩, 1) := by decide
example :
    runSession (fun _ => ⟨2024, 9, 8, 12, 0, 0, 0⟩) [LoopInput.ok [65]] [27, 99] =
      some (⟨false, true, [], [⟨⟨2024, 9, 8, 12, 0, 0, 0⟩, [65]⟩], 1⟩, 0) := by decide
example :
    runSession (fun _ => ⟨2024, 9, 8, 12, 0, 0, 0⟩) [LoopInput.ok [65]] [24] =
      some (⟨false, false, [], [⟨⟨2024, 9, 8, 12, 0, 0, 0⟩, [65]⟩], 1⟩, 0) := by decide
example : isTimestampFormat (formatTimestamp ⟨2024, 9, 8, 12, 3, 5, 7⟩) = true := by decide
example : formatTimestamp ⟨2024, 9, 8, 12, 3, 5, 7⟩ =
    [50, 48, 50, 52, 45, 48, 57, 45, 48, 56, 32, 49, 50, 58, 48, 51, 58, 48, 53, 46, 48, 48, 55] := by
  decide

/-- C1 counterexample: a session that terminates through the fatal
read-error path of the acquisition loop does terminate (the result is
`some`), yet the record file's close is invoked zero times, not once —
`log.Fatalf` exits the process without running the deferred
`file.Close()`. -/
theorem fatal_exit_zero_closes :
    (runSession (fun _ => ⟨2024, 1, 1, 0, 0, 0, 0⟩) [LoopInput.readErr] []).map
        (fun r => r.1.closeCount) = some 0 ∧
      (runSession (fun _ => ⟨2024, 1, 1, 0, 0, 0, 0⟩) [LoopInput.readErr] []).map
        (fun r => r.1.closeCount) ≠ some 1 := by
  decide

/-- C1 amended: on every terminated session, the record file's close is
invoked exactly once when termination came through the key watcher's
commit or discard branch (exit code 0), and exactly zero times when it
came through the fatal-error path (exit code 1, `log.Fatalf` skips the
deferred close); it is never invoked twice. -/
theorem close_count_by_termination_path (clock : Nat → DateTime)
    (inputs : List LoopInput) (keys : List Nat) (s : SessionState) (c : Nat)
    (h : runSession clock inputs keys = some (s, c)) :
    s.closeCount = if c = 0 then 1 else 0 := by
  unfold runSession at h
  have hp := (acquisitionLoop_preserves clock inputs 0 initState).1
  cases hA : acquisitionLoop clock 0 inputs initState with
  | fatal s1 =>
    rw [hA] at h hp
    simp only [Option.some.injEq, Prod.mk.injEq] at h
    obtain ⟨hs, hc⟩ := h
    subst hs
    subst hc
    simpa [LoopExit.state, initState] using hp
  | pending s1 =>
    rw [hA] at h hp
    simp only [LoopExit.state, initState] at hp
    cases hK : checkKeys keys with
    | commit =>
      rw [hK] at h
      simp only [commitExit, Option.some.injEq, Prod.mk.injEq] at h
      obtain ⟨hs, hc⟩ := h
      subst hs
      subst hc
      simp [closeFile, flushWriter, hp]
    | discard =>
      rw [hK] at h
      simp only [discardExit, Option.some.injEq, Prod.mk.injEq] at h
      obtain ⟨hs, hc⟩ := h
      subst hs
      subst hc
      simp [removeFile, closeFile, hp]
    | exhausted => rw [hK] at h; simp at h
    | blockedEscape => rw [hK] at h; simp at h

/-- C1 amended, witness: the commit-key session with no reads closes the
record exactly once. -/
theorem close_count_by_termination_path_witness :
    SessionState.closeCount ⟨false, true, [], [], 1⟩ = if 0 = 0 then 1 else 0 :=
  close_count_by_termination_path (fun _ => ⟨2024, 1, 1, 0, 0, 0, 0⟩) [] [27, 99]
    ⟨false, true, [], [], 1⟩ 0 (by decide)

/-- C2: a committed session over N successful reads persists exactly N
entries, in read order, each entry's payload byte-for-byte the chunk the
read produced. -/
theorem committed_record_matches_reads (clock : Nat → DateTime)
    (chunks : List (List Nat)) (keys : List Nat) (s : SessionState) (c : Nat)
    (hk : checkKeys keys = KeyOutcome.commit)
    (h : runSession clock (chunks.map LoopInput.ok) keys = some (s, c)) :
    s.durable.length = chunks.length ∧ s.durable.map Entry.payload = chunks := by
  rw [runSession_commit clock chunks keys hk] at h
  simp only [Option.some.injEq, Prod.mk.injEq] at h
  obtain ⟨hs, -⟩ := h
  subst hs
  exact ⟨entriesFrom_length clock chunks 0, entriesFrom_payload clock chunks 0⟩

/-- C2 witness: the committed session over reads `"A"`, `"BC"` holds the
two chunks verbatim, in order. -/
theorem committed_record_matches_reads_witness :
    (SessionState.durable ⟨false, true, [],
        [⟨⟨2024, 1, 1, 0, 0, 0, 0⟩, [65]⟩, ⟨⟨2024, 1, 1, 0, 0, 0, 0⟩, [66, 67]⟩], 1⟩).length =
        [[65], [66, 67]].length ∧
      (SessionState.durable ⟨false, true, [],
        [⟨⟨2024, 1, 1, 0, 0, 0, 0⟩, [65]⟩, ⟨⟨2024, 1, 1, 0, 0, 0, 0⟩, [66, 67]⟩], 1⟩).map
        Entry.payload = [[65], [66, 67]] :=
  committed_record_matches_reads (fun _ => ⟨2024, 1, 1, 0, 0, 0, 0⟩) [[65], [66, 67]]
    [27, 99] _ 0 (by decide) (by decide)

/-- C3: after the escape lead-in 0x1b, the watcher commits exactly when
the second byte is `c` (99) or `C` (67); any other second byte is
consumed and dropped — the watcher returns to scanning with nothing
recognized — so in particular 0x1b followed by 0x18 does not discard. -/
theorem escape_second_byte_decides_commit (b : Nat) :
    checkKeys [27, b] =
        (if b = 99 ∨ b = 67 then KeyOutcome.commit else KeyOutcome.exhausted) ∧
      checkKeys [27, 24] ≠ KeyOutcome.discard := by
  refine ⟨?_, by decide⟩
  by_cases hb : b = 99 ∨ b = 67
  · simp [checkKeys, hb]
  · simp [checkKeys, hb]

/-- C4: a single raw input byte produces the terminal discard outcome
exactly when it is 0x18; 0x1b alone only leaves the watcher waiting for
a second byte, and every other byte is ignored - no single byte commits. -/
theorem single_byte_terminal_iff_ctrlX (b : Nat) :
    checkKeys [b] =
        (if b = 24 then KeyOutcome.discard
          else if b = 27 then KeyOutcome.blockedEscape else KeyOutcome.exhausted) ∧
      checkKeys [b] ≠ KeyOutcome.commit := by
  by_cases h24 : b = 24
  · subst h24
    exact ⟨by decide, by decide⟩
  · by_cases h27 : b = 27
    · subst h27
      exact ⟨by decide, by decide⟩
    · constructor
      · simp [checkKeys, h24, h27]
      · simp [checkKeys, h24, h27]

/-- C5: when the discard control code ends the session, the record file
is closed and removed from the medium — zero persisted artifacts —
no matter how many entries were appended and flushed before, and the
process exits with code 0. -/
theorem discard_leaves_no_artifact (clock : Nat → DateTime) (chunks : List (List Nat))
    (keys : List Nat) (s : SessionState) (c : Nat)
    (hk : checkKeys keys = KeyOutcome.discard)
    (h : runSession clock (chunks.map LoopInput.ok) keys = some (s, c)) :
    s.fileOnDisk = false ∧ s.fileOpen = false ∧ c = 0 := by
  rw [runSession_discard clock chunks keys hk] at h
  simp only [Option.some.injEq, Prod.mk.injEq] at h
  obtain ⟨hs, hc⟩ := h
  subst hs
  subst hc
  exact ⟨rfl, rfl, rfl⟩

/-- C5 witness: discarding after one read leaves no artifact. -/
theorem discard_leaves_no_artifact_witness :
    SessionState.fileOnDisk ⟨false, false, [], [⟨⟨2024, 1, 1, 0, 0, 0, 0⟩, [65]⟩], 1⟩ = false ∧
      SessionState.fileOpen ⟨false, false, [], [⟨⟨2024, 1, 1, 0, 0, 0, 0⟩, [65]⟩], 1⟩ = false ∧
      (0 : Nat) = 0 :=
  discard_leaves_no_artifact (fun _ => ⟨2024, 1, 1, 0, 0, 0, 0⟩) [[65]] [24] _ 0
    (by decide) (by decide)

/-- C6: a terminated process exits 0 exactly when termination came from a
key-watcher terminal (commit or discard) after a fault-free startup and
acquisition; every fatal transport or storage path — port open failure,
record creation failure, read error, append error — exits 1. -/
theorem exit_code_convention (clock : Nat → DateTime) (start : Startup)
    (inputs : List LoopInput) (keys : List Nat) (s : SessionState) (c : Nat)
    (h : runProgram clock start inputs keys = some (s, c)) :
    (c = 0 ∨ c = 1) ∧
      (c = 0 ↔ start = Startup.ok ∧
        (acquisitionLoop clock 0 inputs initState).isFatal = false ∧
        (checkKeys keys = KeyOutcome.commit ∨ checkKeys keys = KeyOutcome.discard)) := by
  cases start with
  | portErr =>
    simp only [runProgram, Option.some.injEq, Prod.mk.injEq] at h
    obtain ⟨-, hc⟩ := h
    subst hc
    simp
  | fileErr =>
    simp only [runProgram, Option.some.injEq, Prod.mk.injEq] at h
    obtain ⟨-, hc⟩ := h
    subst hc
    simp
  | ok =>
    simp only [runProgram] at h
    unfold runSession at h
    cases hA : acquisitionLoop clock 0 inputs initState with
    | fatal s1 =>
      rw [hA] at h
      simp only [Option.some.injEq, Prod.mk.injEq] at h
      obtain ⟨-, hc⟩ := h
      subst hc
      simp [LoopExit.isFatal]
    | pending s1 =>
      rw [hA] at h
      cases hK : checkKeys keys with
      | commit =>
        rw [hK] at h
        simp only [commitExit, Option.some.injEq, Prod.mk.injEq] at h
        obtain ⟨-, hc⟩ := h
        subst hc
        simp [LoopExit.isFatal, hK]
      | discard =>
        rw [hK] at h
        simp only [discardExit, Option.some.injEq, Prod.mk.injEq] at h
        obtain ⟨-, hc⟩ := h
        subst hc
        simp [LoopExit.isFatal, hK]
      | exhausted => rw [hK] at h; simp at h
      | blockedEscape => rw [hK] at h; simp at h

/-- C6 witness: a committed session exits 0, and the characterization
holds at that run. -/
theorem exit_code_convention_witness :
    ((0 : Nat) = 0 ∨ (0 : Nat) = 1) ∧
      ((0 : Nat) = 0 ↔ Startup.ok = Startup.ok ∧
        (acquisitionLoop (fun _ => ⟨2024, 1, 1, 0, 0, 0, 0⟩) 0 [LoopInput.ok [65]]
          initState).isFatal = false ∧
        (checkKeys [27, 67] = KeyOutcome.commit ∨ checkKeys [27, 67] = KeyOutcome.discard)) :=
  exit_code_convention (fun _ => ⟨2024, 1, 1, 0, 0, 0, 0⟩) Startup.ok [LoopInput.ok [65]]
    [27, 67] ⟨false, true, [], [⟨⟨2024, 1, 1, 0, 0, 0, 0⟩, [65]⟩], 1⟩ 0 (by decide)

/-- C7: the first read or append error ends the session at once with exit
code 1: the steps queued after it are never attempted (no retry or
backoff), the key watcher's pending decision is never consulted, and no
commit-or-discard action touches the record — it stays open on disk,
unclosed, holding exactly the entries flushed before the error. -/
theorem acquisition_error_is_fatal (clock : Nat → DateTime) (chunks : List (List Nat))
    (bad : LoopInput) (post : List LoopInput) (keys : List Nat)
    (hbad : bad.isFatal = true) :
    runSession clock (chunks.map LoopInput.ok ++ bad :: post) keys =
      some ({ fileOpen := true, fileOnDisk := true, buffered := [],
              durable := entriesFrom clock 0 chunks, closeCount := 0 }, 1) :=
  runSession_fatal clock chunks bad hbad post keys

/-- C7 witness: a read error after one read is fatal even while a discard
keypress is queued, and touches nothing. -/
theorem acquisition_error_is_fatal_witness :
    runSession (fun _ => ⟨2024, 1, 1, 0, 0, 0, 0⟩)
        ([[65]].map LoopInput.ok ++ LoopInput.readErr :: [LoopInput.ok [66]]) [24] =
      some ({ fileOpen := true, fileOnDisk := true, buffered := [],
              durable := entriesFrom (fun _ => ⟨2024, 1, 1, 0, 0, 0, 0⟩) 0 [[65]],
              closeCount := 0 }, 1) :=
  acquisition_error_is_fatal (fun _ => ⟨2024, 1, 1, 0, 0, 0, 0⟩) [[65]]
    LoopInput.readErr [LoopInput.ok [66]] [24] (by decide)

/-- C8: in a committed session each entry carries the wall-clock sample
taken in its own receipt iteration — entry i is stamped `clock i` — so
when successive samples are non-decreasing, consecutive entries'
timestamps are non-decreasing. -/
theorem timestamps_nondecreasing (clock : Nat → DateTime) (chunks : List (List Nat))
    (keys : List Nat) (s : SessionState) (c : Nat)
    (hmono : ∀ i j, i ≤ j → DateTime.le (clock i) (clock j))
    (hk : checkKeys keys = KeyOutcome.commit)
    (h : runSession clock (chunks.map LoopInput.ok) keys = some (s, c)) :
    s.durable.map Entry.stamp = (List.range chunks.length).map clock ∧
      List.Chain' DateTime.le (s.durable.map Entry.stamp) := by
  rw [runSession_commit clock chunks keys hk] at h
  simp only [Option.some.injEq, Prod.mk.injEq] at h
  obtain ⟨hs, -⟩ := h
  subst hs
  have hst := entriesFrom_stamp clock chunks 0
  have hcl : ((List.range chunks.length).map fun j => clock (0 + j)) =
      (List.range chunks.length).map clock := by
    apply List.map_congr_left
    intro j hj
    simp
  constructor
  · simpa [hcl] using hst
  · dsimp only
    rw [hst, hcl]
    exact chain_le_clock_range clock chunks.length hmono

/-- C8 witness: a two-read session under a constant clock has its stamps
in sample order and non-decreasing. -/
theorem timestamps_nondecreasing_witness :
    (SessionState.durable ⟨false, true, [],
        [⟨⟨2024, 1, 1, 0, 0, 0, 0⟩, [65]⟩, ⟨⟨2024, 1, 1, 0, 0, 0, 0⟩, [66]⟩], 1⟩).map
        Entry.stamp = (List.range ([[65], [66]] : List (List Nat)).length).map
          (fun _ => (⟨2024, 1, 1, 0, 0, 0, 0⟩ : DateTime)) ∧
      List.Chain' DateTime.le ((SessionState.durable ⟨false, true, [],
        [⟨⟨2024, 1, 1, 0, 0, 0, 0⟩, [65]⟩, ⟨⟨2024, 1, 1, 0, 0, 0, 0⟩, [66]⟩], 1⟩).map
        Entry.stamp) :=
  timestamps_nondecreasing (fun _ => ⟨2024, 1, 1, 0, 0, 0, 0⟩) [[65], [66]] [27, 99] _ 0
    (fun i j hij => Nat.le_refl _) (by decide) (by decide)

/-- C9: every persisted entry is written as a row of exactly two fields:
first the receipt timestamp rendered `YYYY-MM-DD HH:MM:SS.mmm`, then the
payload bytes exactly as received. -/
theorem entry_rows_two_fields_formatted (clock : Nat → DateTime)
    (chunks : List (List Nat)) (keys : List Nat) (s : SessionState) (c : Nat)
    (hvalid : ∀ i, validDateTime (clock i))
    (hk : checkKeys keys = KeyOutcome.commit)
    (h : runSession clock (chunks.map LoopInput.ok) keys = some (s, c)) :
    ∀ e ∈ s.durable, (entryRow e).length = 2 ∧
      (entryRow e).head? = some (formatTimestamp e.stamp) ∧
      isTimestampFormat (formatTimestamp e.stamp) = true ∧
      (entryRow e).getLast? = some e.payload := by
  rw [runSession_commit clock chunks keys hk] at h
  simp only [Option.some.injEq, Prod.mk.injEq] at h
  obtain ⟨hs, -⟩ := h
  subst hs
  intro e he
  simp only at he
  obtain ⟨j, hj⟩ := entriesFrom_stamp_mem clock chunks 0 e he
  refine ⟨rfl, rfl, ?_, rfl⟩
  rw [hj]
  exact isTimestampFormat_format (hvalid j)

/-- C9 witness: the single committed entry's row is two fields, the first
in timestamp format, the second the raw chunk. -/
theorem entry_rows_two_fields_formatted_witness :
    (entryRow ⟨⟨2024, 1, 1, 0, 0, 0, 0⟩, [65]⟩).length = 2 ∧
      (entryRow ⟨⟨2024, 1, 1, 0, 0, 0, 0⟩, [65]⟩).head? =
        some (formatTimestamp ⟨2024, 1, 1, 0, 0, 0, 0⟩) ∧
      isTimestampFormat (formatTimestamp ⟨2024, 1, 1, 0, 0, 0, 0⟩) = true ∧
      (entryRow ⟨⟨2024, 1, 1, 0, 0, 0, 0⟩, [65]⟩).getLast? = some [65] :=
  entry_rows_two_fields_formatted (fun _ => ⟨2024, 1, 1, 0, 0, 0, 0⟩) [[65]] [27, 99]
    ⟨false, true, [], [⟨⟨2024, 1, 1, 0, 0, 0, 0⟩, [65]⟩], 1⟩ 0
    (fun i => (by decide : validDateTime ⟨2024, 1, 1, 0, 0, 0, 0⟩)) (by decide) (by decide)
    ⟨⟨2024, 1, 1, 0, 0, 0, 0⟩, [65]⟩ (by decide)

/-- C10: starting from an empty writer buffer, the acquisition loop leaves
the buffer empty at its exit point — after each iteration's flush nothing
appended remains pending — so the commit path's final flush is a no-op on
the loop's entries. -/
theorem writer_flushed_between_iterations (clock : Nat → DateTime)
    (pre : List LoopInput) (i : Nat) (s : SessionState) (hb : s.buffered = []) :
    ((acquisitionLoop clock i pre s).state).buffered = [] ∧
      flushWriter ((acquisitionLoop clock i pre s).state) =
        (acquisitionLoop clock i pre s).state := by
  have h1 := acquisitionLoop_buffered clock pre i s hb
  exact ⟨h1, flushWriter_noop _ h1⟩

/-- C10 witness: after one successful read-append-flush iteration the
writer buffer is empty and a further flush is a no-op. -/
theorem writer_flushed_between_iterations_witness :
    ((acquisitionLoop (fun _ => ⟨2024, 1, 1, 0, 0, 0, 0⟩) 0 [LoopInput.ok [65]]
        initState).state).buffered = [] ∧
      flushWriter ((acquisitionLoop (fun _ => ⟨2024, 1, 1, 0, 0, 0, 0⟩) 0 [LoopInput.ok [65]]
        initState).state) =
        (acquisitionLoop (fun _ => ⟨2024, 1, 1, 0, 0, 0, 0⟩) 0 [LoopInput.ok [65]]
          initState).state :=
  writer_flushed_between_iterations (fun _ => ⟨2024, 1, 1, 0, 0, 0, 0⟩) [LoopInput.ok [65]]
    0 initState rfl

end SerialLogger
